import Mathlib

/-!
Verification development for the Sia consensus core (`sia/blocks.go`) and the
negotiation helpers of `modules` (`ReadNegotiationAcceptance`).

The Go source is shallowly embedded: Go maps become functions into `Option`
(a missing key reads as `none`; Go's zero-value reads are made explicit with
`getD`), the iterated `OpenContracts` map becomes an association list iterated
in list order (Go's map iteration order is unspecified; every fact proved below
is insensitive to that order since each maintenance step touches only its own
contract's keys), and machine integers become `Nat`/`Int` (the quantities
involved - heights, counts, currency - are far below 2^64 in every statement
below; `Nat` subtraction only occurs where the source guards it or where the
subtrahend is bounded by the minuend).  A Go runtime panic (nil-map dereference,
division by zero, out-of-range slice) is modelled by an `Option`-valued function
returning `none`.

External collaborators (hashing, encoding) that the spec places out of scope are
modelled as injective encodings into `Nat`.  Functions of this repository that
are referenced by `blocks.go` but whose definitions are not in the sources at
hand (the tip accessors `Height`/`currentBlockNode`/`blockAtHeight`/
`currentBlockWeight`/`Depth`, the transaction layer `validTransaction`/
`applyTransaction`/`reverseTransaction`, and the constants of the header
validator and retarget) are modelled from the spec and marked as such in their
doc comments.
-/

namespace Sia

/-- Timestamps are signed 64-bit Unix seconds (spec section 3); modelled as `Int`. -/
abbrev Timestamp := Int

/-- Currency is an arbitrary-precision non-negative integer (spec section 3). -/
abbrev Currency := Nat

abbrev BlockHeight := Nat

/-- Contract identifiers are 32-byte hashes; modelled as abstract numbers. -/
abbrev ContractID := Nat

/-- Block identifiers are 32-byte hashes; comparisons of 32-byte big-endian
values coincide with numeric comparison, so they are modelled as `Nat`. -/
abbrev BlockID := Nat

abbrev CoinAddress := Nat

/-- Output identifiers are hash-derived (spec: "a deterministic OutputID derived
from its creator").  The hash is modelled as an injective constructor per
derivation rule. -/
inductive OutputID where
  | txOut (tid idx : Nat)
  | storageProof (cid : ContractID) (h : BlockHeight) (sat : Bool)
  | termination (cid : ContractID) (status : Bool)
  | subsidy (bid : BlockID)
deriving DecidableEq

structure Output where
  Value : Currency
  SpendHash : CoinAddress
deriving DecidableEq

structure FileContract where
  Start : BlockHeight
  End : BlockHeight
  ChallengeFrequency : BlockHeight
  Tolerance : Nat
  MissedProofPayout : Currency
  MissedProofAddress : CoinAddress
  ValidProofAddress : CoinAddress
deriving DecidableEq

structure OpenContract where
  FileContract : FileContract
  ContractID : ContractID
  FundsRemaining : Currency
  Failures : Nat
  WindowSatisfied : Bool
deriving DecidableEq

structure MissedStorageProof where
  OutputID : OutputID
  ContractID : ContractID
deriving DecidableEq

/-- Modelled from the spec: the transaction type is defined outside
`sia/blocks.go`.  Following spec section 3, a transaction consumes inputs
(output IDs; each input here carries the full output it spends, which the
validator checks against the ledger and the reverser reinserts), creates
outputs at deterministic IDs, and carries miner fees.  The contract-creating
and proof fields do not appear in any claim and are omitted from the model. -/
structure Transaction where
  Inputs : List (OutputID × Output)
  Outputs : List (OutputID × Output)
  MinerFees : List Currency
deriving DecidableEq

structure Block where
  ParentBlock : BlockID
  Timestamp : Timestamp
  MinerAddress : CoinAddress
  MerkleRoot : Nat
  Nonce : Nat
  Transactions : List Transaction
deriving DecidableEq

/-- A node of the block tree.  `Target` and `Depth` are stored as the numeric
value of their 32-byte big-endian representation (lexicographic comparison of
equal-length byte arrays equals numeric comparison); `childTarget` below works
at the byte level where the source does. -/
structure BlockNode where
  Block : Block
  Height : BlockHeight
  Target : Nat
  Depth : Nat
  RecentTimestamps : List Timestamp
  Children : List BlockID
  ContractTerminations : List OpenContract
  MissedStorageProofs : List MissedStorageProof
deriving DecidableEq

/-- The consensus state.  Go maps are functions into `Option`; `BadBlocks` is a
set; `OpenContracts` (iterated by the source) is an association list keyed by
`ContractID`. -/
structure State where
  BadBlocks : BlockID → Bool
  BlockMap : BlockID → Option BlockNode
  CurrentBlock : BlockID
  CurrentPath : BlockHeight → Option BlockID
  UnspentOutputs : OutputID → Option Output
  OpenContracts : List OpenContract
  BlockRoot : BlockNode

/-- The error kinds surfaced by the embedded functions (spec section 7). -/
inductive Err where
  | knownInvalid
  | alreadyKnown
  | orphan
  | futureTimestamp
  | earlyTimestamp
  | merkleMismatch
  | targetNotMet
  | invalidTransaction
deriving DecidableEq

/-! ### Map helpers -/

def setFun {α β : Type} [DecidableEq α] (m : α → Option β) (k : α) (v : β) : α → Option β :=
  fun x => if x = k then some v else m x

def delFun {α β : Type} [DecidableEq α] (m : α → Option β) (k : α) : α → Option β :=
  fun x => if x = k then none else m x

def insertBad (m : BlockID → Bool) (k : BlockID) : BlockID → Bool :=
  fun x => if x = k then true else m x

def delList (ks : List OutputID) (m : OutputID → Option Output) : OutputID → Option Output :=
  ks.foldl (fun acc k => delFun acc k) m

def setList (ps : List (OutputID × Output)) (m : OutputID → Option Output) : OutputID → Option Output :=
  ps.foldl (fun acc p => setFun acc p.1 p.2) m

def ocSet (l : List OpenContract) (c : OpenContract) : List OpenContract :=
  if l.any (fun c1 => decide (c1.ContractID = c.ContractID)) then
    l.map (fun c1 => if c1.ContractID = c.ContractID then c else c1)
  else l ++ [c]

def ocUpdate (l : List OpenContract) (cid : ContractID) (f : OpenContract → OpenContract) :
    List OpenContract :=
  l.map (fun c => if c.ContractID = cid then f c else c)

def ocLookup (l : List OpenContract) (cid : ContractID) : Option OpenContract :=
  l.find? (fun c => decide (c.ContractID = cid))

/-! ### External hashing, modelled as injective encodings -/

def encodeInt (t : Int) : Nat := if 0 ≤ t then 2 * t.toNat else 2 * (-t).toNat + 1

/-- External collaborator modelled abstractly: the block ID is the hash of the
block header.  The transactions influence the ID only through the Merkle root,
exactly as in the source, where `ID()` hashes the header fields. -/
def Block.id (b : Block) : BlockID :=
  Nat.pair b.ParentBlock
    (Nat.pair (encodeInt b.Timestamp) (Nat.pair b.MinerAddress (Nat.pair b.MerkleRoot b.Nonce)))

/-- External collaborator modelled abstractly: the miner-subsidy output ID is
derived from the block (source: `b.SubsidyID()`). -/
def Block.SubsidyID (b : Block) : OutputID := OutputID.subsidy (Block.id b)

def encodeList (l : List Nat) : Nat := l.foldr (fun a r => Nat.pair a r + 1) 0

def encodeOutputID : OutputID → Nat
  | OutputID.txOut a b => Nat.pair 0 (Nat.pair a b)
  | OutputID.storageProof c h sat => Nat.pair 1 (Nat.pair c (Nat.pair h (cond sat 1 0)))
  | OutputID.termination c st => Nat.pair 2 (Nat.pair c (cond st 1 0))
  | OutputID.subsidy bid => Nat.pair 3 bid

def encodeOutput (o : Output) : Nat := Nat.pair o.Value o.SpendHash

def encodeTransaction (t : Transaction) : Nat :=
  Nat.pair (encodeList (t.Inputs.map fun p => Nat.pair (encodeOutputID p.1) (encodeOutput p.2)))
    (Nat.pair (encodeList (t.Outputs.map fun p => Nat.pair (encodeOutputID p.1) (encodeOutput p.2)))
      (encodeList t.MinerFees))

/-- External collaborator modelled abstractly: the Merkle root over the hashes
of the encoded transactions (source: `expectedTransactionMerkleRoot`). -/
def merkleRootTxs (ts : List Transaction) : Nat := encodeList (ts.map encodeTransaction)

def Block.expectedTransactionMerkleRoot (b : Block) : Nat := merkleRootTxs b.Transactions

/-! ### Spec-modelled tip accessors -/

/-- Modelled from the spec: `State.currentBlockNode` is declared outside
`sia/blocks.go`; per the spec the tip view is keyed by the current tip ID, so it
reads the block map at `CurrentBlock`. -/
def State.currentBlockNode (s : State) : Option BlockNode := s.BlockMap s.CurrentBlock

/-- Modelled from the spec: `State.Height` is declared outside `sia/blocks.go`;
per the spec (`Height() → Height`, the tip node caches its height) it is the
height of the current tip node.  `none` marks the nil dereference Go would hit
when the tip node is missing. -/
def State.height (s : State) : Option BlockHeight := (s.BlockMap s.CurrentBlock).map BlockNode.Height

/-- Modelled from the spec: `State.blockAtHeight` is declared outside
`sia/blocks.go`; per the spec it resolves the ancestor at the given height along
the current tip path. -/
def State.blockAtHeight (s : State) (h : BlockHeight) : Option Block :=
  (s.CurrentPath h).bind (fun bid => (s.BlockMap bid).map BlockNode.Block)

/-! ### Spec-modelled transaction layer -/

/-- Modelled from the spec: `validTransaction` is declared outside
`sia/blocks.go`.  Per spec section 4.4 it checks a transaction against the
current ledger: every input is present in `UnspentOutputs` (with the value the
transaction claims), inputs are distinct, created outputs are fresh and
distinct, and the conservation invariant of spec section 3 holds
(sum of inputs = sum of outputs + sum of miner fees). -/
def validTransactionU (u : OutputID → Option Output) (t : Transaction) : Bool :=
  t.Inputs.all (fun p => decide (u p.1 = some p.2)) &&
  decide ((t.Inputs.map Prod.fst).Nodup) &&
  t.Outputs.all (fun p => decide (u p.1 = none)) &&
  decide ((t.Outputs.map Prod.fst).Nodup) &&
  decide ((t.Inputs.map (fun p => p.2.Value)).sum =
    (t.Outputs.map (fun p => p.2.Value)).sum + t.MinerFees.sum)

def validTransaction (s : State) (t : Transaction) : Bool :=
  validTransactionU s.UnspentOutputs t

/-- Modelled from the spec: `applyTransaction` is declared outside
`sia/blocks.go`.  Per spec section 4.4 it consumes the inputs from
`UnspentOutputs` and creates the outputs. -/
def applyTransaction (s : State) (t : Transaction) : State :=
  { s with UnspentOutputs := setList t.Outputs (delList (t.Inputs.map Prod.fst) s.UnspentOutputs) }

/-- Modelled from the spec: `reverseTransaction` is declared outside
`sia/blocks.go`.  Per spec section 4.4 reversal is the exact inverse of
application: it deletes the created outputs and reinserts the consumed inputs. -/
def reverseTransaction (s : State) (t : Transaction) : State :=
  { s with UnspentOutputs := setList t.Inputs (delList (t.Outputs.map Prod.fst) s.UnspentOutputs) }

/-! ### Header validation (source lines 53-99) -/

/-- `checkTarget` (source lines 53-57): true when
`bytes.Compare(target, blockHash) >= 0`, i.e. when the ID is at most the
target (lexicographic comparison of 32-byte big-endian arrays is numeric
comparison). -/
def checkTarget (b : Block) (target : Nat) : Bool := decide (Block.id b ≤ target)

def insertSorted (x : Int) : List Int → List Int
  | [] => [x]
  | y :: ys => if x ≤ y then x :: y :: ys else y :: insertSorted x ys

/-- Ascending sort, embedding `sort.Ints`. -/
def insSort (l : List Int) : List Int := l.foldr insertSorted []

/-- The sorted element at index 5 of the parent's 11 recent timestamps
(source line 78: `intTimestamps[5]`). -/
def medianTimestamp (parent : BlockNode) : Int := (insSort parent.RecentTimestamps).getD 5 0

/-- `validateHeader` (source lines 62-99).  `futureThreshold` and `now` are
passed explicitly: the constant `FutureThreshold` is declared outside
`sia/blocks.go` and the source reads the wall clock (`time.Now()`). -/
def validateHeader (futureThreshold now : Timestamp) (s : State) (parent : BlockNode) (b : Block) :
    State × Option Err :=
  if futureThreshold < b.Timestamp - now then (s, some Err.futureTimestamp)
  else if b.Timestamp < medianTimestamp parent then
    ({ s with BadBlocks := insertBad s.BadBlocks (Block.id b) }, some Err.earlyTimestamp)
  else if ¬ b.MerkleRoot = Block.expectedTransactionMerkleRoot b then
    ({ s with BadBlocks := insertBad s.BadBlocks (Block.id b) }, some Err.merkleMismatch)
  else if checkTarget b parent.Target = false then (s, some Err.targetNotMet)
  else (s, none)

/-! ### Fork weight (source lines 14, 177-186) -/

def SurpassThreshold : ℚ := 5 / 100

/-- `heavierFork` (source lines 179-186).  The accessors `currentBlockWeight`
and `Depth` are declared outside `sia/blocks.go` and are modelled from the
spec: `current_block_weight = 1 / current_tip.target` and `Depth()` is the
current tip node's depth.  Returns `none` where Go panics: a missing tip node,
or a zero 32-byte value handed to `big.Rat.SetFrac` as a denominator. -/
def heavierFork (s : State) (newNode : BlockNode) : Option Bool :=
  match s.BlockMap s.CurrentBlock with
  | none => none
  | some tip =>
    if tip.Target = 0 ∨ tip.Depth = 0 ∨ newNode.Depth = 0 then none
    else
      let threshold : ℚ := (1 / (tip.Target : ℚ)) * SurpassThreshold
      let currentDepth : ℚ := 1 / (tip.Depth : ℚ)
      let requiredDepth : ℚ := currentDepth + threshold
      let newNodeDepth : ℚ := 1 / (newNode.Depth : ℚ)
      some (decide (requiredDepth < newNodeDepth))

/-! ### Block integration (source lines 216-330) -/

/-- Result of the transaction loop at the head of `integrateBlock`
(source lines 219-236). -/
structure TxLoopResult where
  state : State
  applied : List Transaction
  subsidy : Currency
  err : Option Err

/-- The transaction loop of `integrateBlock` (source lines 219-236): validate
and apply each transaction in order, accumulating the applied list and the
miner fees; on the first failure mark the block bad and stop. -/
def integrateTxLoop (bid : BlockID) : State → List Transaction → Currency → TxLoopResult
  | s, [], sub => ⟨s, [], sub, none⟩
  | s, t :: ts, sub =>
    if validTransaction s t then
      let r := integrateTxLoop bid (applyTransaction s t) ts (sub + t.MinerFees.sum)
      ⟨r.state, t :: r.applied, r.subsidy, r.err⟩
    else
      ⟨{ s with BadBlocks := insertBad s.BadBlocks bid }, [], sub, some Err.invalidTransaction⟩

/-- Accumulator of the contract-maintenance loop (source lines 249-313):
the unspent-output map being written, the contracts after their per-contract
updates, the deferred deletions, and the undo records to append to the current
tip node.  `panicked` records Go's division-by-zero panic when a contract has
`ChallengeFrequency == 0`. -/
structure MaintAcc where
  unspent : OutputID → Option Output
  contracts : List OpenContract
  toDelete : List ContractID
  msps : List MissedStorageProof
  terms : List OpenContract
  panicked : Bool

/-- The window phase of one contract-maintenance iteration
(source lines 251-282) at height `h` (the value of `s.Height()` during the
loop): on a rollover - `(h − start) mod frequency == 0` and `h > start`; Go's
truncating `uint` subtraction agrees with `Nat` subtraction on this guard since
for `h < start` the second conjunct fails either way - of an unsatisfied
window, pay out `min(missedProofPayout, fundsRemaining)` to a fresh
missed-proof output, record the undo entry, debit the contract and count the
failure; on any rollover reset `WindowSatisfied`. -/
def windowStep (h : BlockHeight) (acc : MaintAcc) (c : OpenContract) : OpenContract × MaintAcc :=
  if (h - c.FileContract.Start) % c.FileContract.ChallengeFrequency = 0 ∧
      c.FileContract.Start < h then
    if c.WindowSatisfied = false then
      let payout :=
        if c.FundsRemaining < c.FileContract.MissedProofPayout then c.FundsRemaining
        else c.FileContract.MissedProofPayout
      let newOutputID := OutputID.storageProof c.ContractID h false
      (({ c with FundsRemaining := c.FundsRemaining - payout,
                 Failures := c.Failures + 1,
                 WindowSatisfied := false } : OpenContract),
       { acc with
          unspent := setFun acc.unspent newOutputID ⟨payout, c.FileContract.MissedProofAddress⟩,
          msps := acc.msps ++ [⟨newOutputID, c.ContractID⟩] })
    else ({ c with WindowSatisfied := false }, acc)
  else (c, acc)

/-- The termination phase of one contract-maintenance iteration
(source lines 284-308) on the post-window contract `c1`: when the funds are
exhausted, the end height is reached, or the tolerance is met, create the
termination output (if funds remain) at the status-derived ID, record the undo
entry and mark the contract for deletion. -/
def terminationStep (h : BlockHeight) (acc : MaintAcc) (c1 : OpenContract) : MaintAcc :=
  if c1.FundsRemaining = 0 ∨ c1.FileContract.End = h ∨ c1.FileContract.Tolerance = c1.Failures then
    let acc2 :=
      if c1.FundsRemaining ≠ 0 then
        let status := decide (c1.Failures = c1.FileContract.Tolerance)
        { acc with unspent := (setFun acc.unspent (OutputID.termination c1.ContractID status)
            ⟨c1.FundsRemaining,
             if c1.FileContract.Tolerance = c1.Failures then c1.FileContract.MissedProofAddress
             else c1.FileContract.ValidProofAddress⟩) }
      else acc
    { acc2 with contracts := acc2.contracts ++ [c1], terms := acc2.terms ++ [c1],
                toDelete := acc2.toDelete ++ [c1.ContractID] }
  else
    { acc with contracts := acc.contracts ++ [c1] }

/-- One iteration of the contract-maintenance loop (source lines 250-309):
the window phase followed by the termination phase.  A contract with
`ChallengeFrequency == 0` makes the source's `%` expression panic (integer
division by zero), recorded in `panicked`. -/
def maintainOne (h : BlockHeight) (acc : MaintAcc) (c : OpenContract) : MaintAcc :=
  if c.FileContract.ChallengeFrequency = 0 then
    { acc with contracts := acc.contracts ++ [c], panicked := true }
  else
    terminationStep h (windowStep h acc c).2 (windowStep h acc c).1

/-- The tail of `integrateBlock` (source lines 315-329): add the coin inflation
(1000) to the miner subsidy, create the miner payout output at the block's
subsidy ID, and update `CurrentBlock` and `CurrentPath` (the latter via
`s.BlockMap[b.ID()].Height`, whose nil dereference is `none`). -/
def integrateFinish (s : State) (b : Block) (sub : Currency) : Option (State × Option Err) :=
  let minerSubsidy := sub + 1000
  let u := setFun s.UnspentOutputs (Block.SubsidyID b) ⟨minerSubsidy, b.MinerAddress⟩
  match s.BlockMap (Block.id b) with
  | none => none
  | some bn =>
    some ({ s with UnspentOutputs := u,
                   CurrentBlock := Block.id b,
                   CurrentPath := setFun s.CurrentPath bn.Height (Block.id b) }, none)

/-- `integrateBlock` (source lines 218-330).  The result is `none` where Go
panics; otherwise it is the mutated state paired with the returned error.
Note that the contract maintenance runs before `CurrentBlock` is updated
(source line 326), so `s.Height()` and `s.currentBlockNode()` inside the loop
refer to the tip at entry, i.e. the parent of `b`; when `OpenContracts` is
nonempty the loop evaluates `s.Height()` (in the window condition) even when no
record is produced, so a missing tip node is a panic exactly then. -/
def integrateBlock (s : State) (b : Block) : Option (State × Option Err) :=
  let r := integrateTxLoop (Block.id b) s b.Transactions 0
  match r.err with
  | some e => some (r.applied.reverse.foldl reverseTransaction r.state, some e)
  | none =>
    let s1 := r.state
    match s1.OpenContracts with
    | [] => integrateFinish s1 b r.subsidy
    | _ =>
      match s1.BlockMap s1.CurrentBlock with
      | none => none
      | some tipNode =>
        let acc := s1.OpenContracts.foldl (maintainOne tipNode.Height)
          ⟨s1.UnspentOutputs, [], [], [], [], false⟩
        if acc.panicked then none
        else
          let bm := setFun s1.BlockMap s1.CurrentBlock
            { tipNode with
                MissedStorageProofs := tipNode.MissedStorageProofs ++ acc.msps,
                ContractTerminations := tipNode.ContractTerminations ++ acc.terms }
          let contracts1 := acc.contracts.filter (fun c => ¬ acc.toDelete.contains c.ContractID)
          integrateFinish
            { s1 with UnspentOutputs := acc.unspent, OpenContracts := contracts1, BlockMap := bm }
            b r.subsidy

/-! ### Block rewind (source lines 188-214) -/

/-- `rewindABlock` (source lines 190-214): reopen the contracts recorded in the
tip node's `ContractTerminations` (deleting their termination outputs), reverse
its `MissedStorageProofs` (crediting the output's value - a Go zero-value read
when the output is missing - back to the contract, decrementing its failures,
and deleting the output; a missing contract is a nil-pointer panic), reverse the
block's transactions in reverse order, step `CurrentBlock` to the parent, and
delete the `CurrentPath` entry at `s.Height()` - which, after the reassignment
on source line 212, is the parent's height.  `Failures - 1` uses truncating
`Nat` subtraction; Go's unsigned wrap at zero is never reached in the
statements below. -/
def rewindABlock (s : State) : Option State :=
  match s.BlockMap s.CurrentBlock with
  | none => none
  | some node =>
    let s1 := node.ContractTerminations.foldl
      (fun st oc =>
        { st with
            OpenContracts := ocSet st.OpenContracts oc,
            UnspentOutputs := delFun st.UnspentOutputs
              (OutputID.termination oc.ContractID (decide (oc.Failures = oc.FileContract.Tolerance))) })
      s
    match node.MissedStorageProofs.foldlM
      (fun (st : State) mp =>
        if st.OpenContracts.any (fun c => decide (c.ContractID = mp.ContractID)) then
          let val := ((st.UnspentOutputs mp.OutputID).getD ⟨0, 0⟩).Value
          some { st with
            OpenContracts := ocUpdate st.OpenContracts mp.ContractID
              (fun c => { c with FundsRemaining := c.FundsRemaining + val,
                                 Failures := c.Failures - 1 }),
            UnspentOutputs := delFun st.UnspentOutputs mp.OutputID }
        else none)
      s1 with
    | none => none
    | some s2 =>
      let s3 := node.Block.Transactions.reverse.foldl reverseTransaction s2
      let s4 := { s3 with CurrentBlock := node.Block.ParentBlock }
      match s4.BlockMap s4.CurrentBlock with
      | none => none
      | some pnode =>
        some { s4 with CurrentPath := delFun s4.CurrentPath pnode.Height }

/-! ### Subtree invalidation and reorg (source lines 332-399) -/

/-- `invalidateNode` (source lines 334-341): recursively move the node's
subtree into `BadBlocks`, deleting from the block map.  The Go recursion walks
child pointers; here children are IDs resolved through the block map, and a
`fuel` bound makes the recursion well-founded (ample fuel is supplied wherever
it is called; exhaustion or an unresolvable child is `none`). -/
def invalidateNode : Nat → State → BlockNode → Option State
  | 0, _, _ => none
  | fuel + 1, s, node => do
    let s1 ← node.Children.foldlM
      (fun (st : State) cid => do
        let child ← st.BlockMap cid
        invalidateNode fuel st child)
      s
    pure { s1 with BlockMap := delFun s1.BlockMap (Block.id node.Block),
                   BadBlocks := insertBad s1.BadBlocks (Block.id node.Block) }

/-- The common-ancestor walk of `forkBlockchain` (source lines 351-358):
collect IDs walking up from the new node until the current path's entry at the
walker's height (a Go zero-value read when absent) equals the walker's ID.
The source loop terminates on well-formed trees because heights strictly
decrease; `fuel` makes that explicit. -/
def findForkPoint (s : State) : Nat → BlockNode → List BlockID → Option (BlockNode × List BlockID)
  | 0, _, _ => none
  | fuel + 1, cur, acc =>
    if (s.CurrentPath cur.Height).getD 0 = Block.id cur.Block then some (cur, acc)
    else
      match s.BlockMap cur.Block.ParentBlock with
      | none => none
      | some p => findForkPoint s fuel p (acc ++ [Block.id cur.Block])

/-- The rewind loop of `forkBlockchain` (source lines 362-366): pop blocks off
the tip, recording each rewound ID in order, until the tip is the fork point. -/
def rewindToFork (target : BlockID) : Nat → State → List BlockID → Option (State × List BlockID)
  | 0, _, _ => none
  | fuel + 1, s, acc =>
    if s.CurrentBlock = target then some (s, acc)
    else
      match rewindABlock s with
      | none => none
      | some s1 => rewindToFork target fuel s1 (acc ++ [s.CurrentBlock])

def rewindN : Nat → State → Option State
  | 0, s => some s
  | k + 1, s =>
    match rewindABlock s with
    | none => none
    | some s1 => rewindN k s1

/-- The restoration loop of `forkBlockchain` (source lines 386-391): reapply
the rewound blocks from the fork point back toward the original tip.  Each
iteration overwrites `err` with the result of `integrateBlock`; a failure is
the source's `panic("Once-validated blocks are no longer validating...")`,
modelled as `none`.  The incoming `e` is the value the `err` variable holds
when the loop starts (the integration failure); it survives only when the loop
body never runs. -/
def restoreLoop : State → List BlockID → Option Err → Option (State × Option Err)
  | s, [], e => some (s, e)
  | s, rid :: rest, _ =>
    match s.BlockMap rid with
    | none => none
    | some node =>
      match integrateBlock s node.Block with
      | none => none
      | some (_, some _) => none
      | some (s1, none) => restoreLoop s1 rest none

/-- The forward loop of `forkBlockchain` (source lines 372-396): integrate the
new-fork blocks in order; on the first failure invalidate the failing subtree,
rewind the already-validated new-fork blocks, restore the rewound blocks, and
stop with whatever the `err` variable then holds. -/
def integrateForkLoop (fuel : Nat) (rewound : List BlockID) :
    State → List BlockID → Nat → Option (State × Option Err)
  | s, [], _ => some (s, none)
  | s, pid :: rest, validatedBlocks =>
    match s.BlockMap pid with
    | none => none
    | some node =>
      match integrateBlock s node.Block with
      | none => none
      | some (s1, none) => integrateForkLoop fuel rewound s1 rest (validatedBlocks + 1)
      | some (s1, some e) =>
        match s1.BlockMap pid with
        | none => none
        | some node1 =>
          match invalidateNode fuel s1 node1 with
          | none => none
          | some s2 =>
            match rewindN validatedBlocks s2 with
            | none => none
            | some s3 => restoreLoop s3 rewound.reverse (some e)

/-- `forkBlockchain` (source lines 346-399). -/
def forkBlockchain (fuel : Nat) (s : State) (newNode : BlockNode) : Option (State × Option Err) :=
  match findForkPoint s fuel newNode [] with
  | none => none
  | some (forkNode, parentHistory) =>
    match rewindToFork (Block.id forkNode.Block) fuel s [] with
    | none => none
    | some (s1, rewound) => integrateForkLoop fuel rewound s1 parentHistory.reverse 0

/-! ### Retarget (source lines 101-139) -/

/-- Minimal big-endian byte string of a natural number, embedding
`big.Int.Bytes()` (empty for zero). -/
def natToBytesBE (n : Nat) : List Nat :=
  if h : n = 0 then [] else natToBytesBE (n / 256) ++ [n % 256]
decreasing_by exact Nat.div_lt_self (Nat.pos_of_ne_zero h) (by omega)

/-- Big-endian value of a byte string. -/
def fromBytesBE (l : List Nat) : Nat := l.foldl (fun acc b => acc * 256 + b) 0

/-- The numeric part of `childTarget` (source lines 104-134): the truncated
product of the parent target and the clamped timestamp adjustment.  The
constants `TargetWindow`, `BlockFrequency`, `MaxAdjustmentUp` and
`MaxAdjustmentDown` are declared outside `sia/blocks.go` and are passed
explicitly.  `none` marks Go panics: an unresolvable adjustment block (via the
spec-modelled `blockAtHeight`) or `big.NewRat` with a zero denominator.
`big.Int.Div(num, den)` is Euclidean division, which on the positive
denominator of a normalized rational is `Int.fdiv`, the floor. -/
def adjustedTargetValue (blockFrequency : Timestamp) (targetWindow : Nat)
    (maxAdjustmentUp maxAdjustmentDown : ℚ) (s : State) (parentNode newNode : BlockNode) :
    Option Int :=
  let tpExp : Option (Int × Int) :=
    if newNode.Height < targetWindow then
      some (newNode.Block.Timestamp - s.BlockRoot.Block.Timestamp,
        blockFrequency * (newNode.Height : Int))
    else
      match s.blockAtHeight (newNode.Height - targetWindow) with
      | none => none
      | some adjustmentBlock =>
        some (newNode.Block.Timestamp - adjustmentBlock.Timestamp,
          blockFrequency * (targetWindow : Int))
  match tpExp with
  | none => none
  | some (timePassed, expectedTimePassed) =>
    if expectedTimePassed = 0 then none
    else
      let targetAdjustment : ℚ := (timePassed : ℚ) / (expectedTimePassed : ℚ)
      let clamped : ℚ :=
        if maxAdjustmentUp < targetAdjustment then maxAdjustmentUp
        else if targetAdjustment < maxAdjustmentDown then maxAdjustmentDown
        else targetAdjustment
      let ratNewTarget : ℚ := (parentNode.Target : ℚ) * clamped
      some (Int.fdiv ratNewTarget.num (ratNewTarget.den : Int))

/-- `childTarget` (source lines 103-139): compute the adjusted target, take its
big-endian bytes (`big.Int.Bytes` is the magnitude), and copy them into the
32-byte target at offset `32 - len(bytes)`; when the bytes do not fit the
offset is negative and the slice expression `target[offset:]` panics (`none`). -/
def childTarget (blockFrequency : Timestamp) (targetWindow : Nat)
    (maxAdjustmentUp maxAdjustmentDown : ℚ) (s : State) (parentNode newNode : BlockNode) :
    Option (List Nat) :=
  match adjustedTargetValue blockFrequency targetWindow maxAdjustmentUp maxAdjustmentDown
      s parentNode newNode with
  | none => none
  | some intNewTarget =>
    let newTargetBytes := natToBytesBE intNewTarget.natAbs
    if 32 < newTargetBytes.length then none
    else some (List.replicate (32 - newTargetBytes.length) 0 ++ newTargetBytes)

end Sia

namespace Modules

/-- `AcceptResponse` (modules source line 289). -/
def AcceptResponse : String := "accept"

/-- `MaxErrorSize` (modules source lines 309-311). -/
def MaxErrorSize : Nat := 256

/-- Modelled from the spec: `encoding.ReadObject` belongs to the external codec
layer.  Per the spec a negotiation response is an encoded UTF-8 string and
"error bodies are bounded to 256 bytes": reading fails when the encoded string
exceeds the given bound, and otherwise yields the string. -/
def readObject (data : List Char) (maxLen : Nat) : Except String String :=
  if maxLen < data.length then Except.error ("object is too large") else Except.ok (String.mk data)

/-- `ReadNegotiationAcceptance` (modules source lines 491-500): read a response
bounded by `MaxErrorSize`; `nil` (`none`) for the literal accept response, and
otherwise an error carrying the response string. -/
def ReadNegotiationAcceptance (data : List Char) : Option String :=
  match readObject data MaxErrorSize with
  | Except.error e => some e
  | Except.ok resp => if resp = AcceptResponse then none else some resp

end Modules

namespace Sia

/-! ### Statement-level vocabulary for the contract-maintenance claims -/

/-- The window-rollover condition of claim C3 at height `h`:
`(h − start) mod challengeFrequency == 0` and `h > start`. -/
def rolloverAt (h : BlockHeight) (c : OpenContract) : Prop :=
  (h - c.FileContract.Start) % c.FileContract.ChallengeFrequency = 0 ∧ c.FileContract.Start < h

instance (h : BlockHeight) (c : OpenContract) : Decidable (rolloverAt h c) := by
  unfold rolloverAt; infer_instance

/-- The contract after the window phase of one maintenance pass at height `h`:
on a rollover of an unsatisfied window, the payout
`min(missedProofPayout, fundsRemaining)` is debited and `failures` is
incremented; on any rollover `windowSatisfied` is reset to false. -/
def contractAfterWindow (h : BlockHeight) (c : OpenContract) : OpenContract :=
  if rolloverAt h c then
    if c.WindowSatisfied = false then
      { c with
          FundsRemaining :=
            c.FundsRemaining - min c.FileContract.MissedProofPayout c.FundsRemaining,
          Failures := c.Failures + 1,
          WindowSatisfied := false }
    else { c with WindowSatisfied := false }
  else c

/-- The termination condition of claim C3 at height `h`, evaluated on the
post-window contract: `fundsRemaining == 0`, `h == end`, or
`failures == tolerance`. -/
def terminatesAt (h : BlockHeight) (c : OpenContract) : Prop :=
  (contractAfterWindow h c).FundsRemaining = 0 ∨ c.FileContract.End = h ∨
    c.FileContract.Tolerance = (contractAfterWindow h c).Failures

instance (h : BlockHeight) (c : OpenContract) : Decidable (terminatesAt h c) := by
  unfold terminatesAt; infer_instance

/-! ### Concrete scenarios used by the counterexamples and witnesses -/

/-- A genesis block node with no transactions, used as the tip of the small
scenarios. -/
def zeroBlock : Block := ⟨0, 0, 0, 0, 0, []⟩

def zeroNode : BlockNode := ⟨zeroBlock, 0, 0, 0, [], [], [], []⟩

namespace S1

def g : Block := ⟨0, 5, 1, 0, 0, []⟩

def b : Block := ⟨Block.id g, 9, 7, merkleRootTxs [], 0, []⟩

def gN : BlockNode := ⟨g, 3, 100, 50, List.replicate 11 5, [], [], []⟩

def bN : BlockNode := ⟨b, 4, 100, 40, List.replicate 11 5, [], [], []⟩

/-- Tip `g` at height 3, with the empty valid block `b` attached at height 4
and no open contracts or outputs. -/
def s0 : State where
  BadBlocks := fun _ => false
  BlockMap := fun x =>
    if x = Block.id g then some gN else if x = Block.id b then some bN else none
  CurrentBlock := Block.id g
  CurrentPath := fun h => if h = 3 then some (Block.id g) else none
  UnspentOutputs := fun _ => none
  OpenContracts := []
  BlockRoot := gN

end S1

namespace S2

/-- Start 1, End 100, ChallengeFrequency 2, Tolerance 5, MissedProofPayout 50,
MissedProofAddress 9, ValidProofAddress 8. -/
def fc : FileContract := ⟨1, 100, 2, 5, 50, 9, 8⟩

def c : OpenContract := ⟨fc, 7, 100, 0, false⟩

def g : Block := ⟨0, 5, 1, 0, 0, []⟩

def b : Block := ⟨Block.id g, 9, 7, merkleRootTxs [], 0, []⟩

def gN : BlockNode := ⟨g, 3, 100, 50, List.replicate 11 5, [], [], []⟩

def bN : BlockNode := ⟨b, 4, 100, 40, List.replicate 11 5, [], [], []⟩

/-- Tip `g` at height 3 with one open contract whose window (frequency 2 from
start 1) is unsatisfied, and the empty valid block `b` attached at height 4. -/
def s0 : State where
  BadBlocks := fun _ => false
  BlockMap := fun x =>
    if x = Block.id g then some gN else if x = Block.id b then some bN else none
  CurrentBlock := Block.id g
  CurrentPath := fun h => if h = 3 then some (Block.id g) else none
  UnspentOutputs := fun _ => none
  OpenContracts := [c]
  BlockRoot := gN

end S2

namespace S4

def g : Block := ⟨0, 5, 1, 0, 0, []⟩

def a1 : Block := ⟨Block.id g, 10, 2, 0, 0, []⟩

/-- Invalid transaction: spends an output absent from the ledger. -/
def badTx : Transaction := ⟨[(OutputID.txOut 99 0, ⟨5, 5⟩)], [], []⟩

def b1 : Block := ⟨Block.id g, 11, 3, 0, 0, [badTx]⟩

def b2 : Block := ⟨Block.id b1, 12, 3, 0, 0, []⟩

def gN : BlockNode := ⟨g, 0, 100, 50, List.replicate 11 5, [Block.id a1, Block.id b1], [], []⟩

def a1N : BlockNode := ⟨a1, 1, 100, 40, List.replicate 11 5, [], [], []⟩

def b1N : BlockNode := ⟨b1, 1, 100, 39, List.replicate 11 5, [Block.id b2], [], []⟩

def b2N : BlockNode := ⟨b2, 2, 100, 30, List.replicate 11 5, [], [], []⟩

/-- Tip is `a1` (chain g ← a1); the fork g ← b1 ← b2 is attached, and `b1`
contains an invalid transaction, so integrating the fork fails after `a1` has
been rewound. -/
def s0 : State where
  BadBlocks := fun _ => false
  BlockMap := fun x =>
    if x = Block.id g then some gN
    else if x = Block.id a1 then some a1N
    else if x = Block.id b1 then some b1N
    else if x = Block.id b2 then some b2N
    else none
  CurrentBlock := Block.id a1
  CurrentPath := fun h =>
    if h = 0 then some (Block.id g) else if h = 1 then some (Block.id a1) else none
  UnspentOutputs := fun x => if x = Block.SubsidyID a1 then some ⟨1000, 2⟩ else none
  OpenContracts := []
  BlockRoot := gN

end S4

namespace S5

/-- Valid transaction: spends the one ledger output of value 10 into an output
of value 4 plus a miner fee of 6. -/
def tx1 : Transaction := ⟨[(OutputID.txOut 1 0, ⟨10, 3⟩)], [(OutputID.txOut 50 0, ⟨4, 4⟩)], [6]⟩

/-- Invalid transaction: spends an output absent from the ledger. -/
def tx2 : Transaction := ⟨[(OutputID.txOut 77 0, ⟨5, 5⟩)], [], []⟩

def b : Block := ⟨0, 9, 7, 0, 0, [tx1, tx2]⟩

def s0 : State where
  BadBlocks := fun _ => false
  BlockMap := fun _ => none
  CurrentBlock := 0
  CurrentPath := fun _ => none
  UnspentOutputs := fun x => if x = OutputID.txOut 1 0 then some ⟨10, 3⟩ else none
  OpenContracts := []
  BlockRoot := zeroNode

end S5

namespace S6

def b : Block := ⟨0, 5, 1, merkleRootTxs [], 0, []⟩

/-- Parent whose 11 recent timestamps are 0..10, so the sorted element at
index 5 is 5, equal to the block's timestamp; the target exceeds the ID. -/
def parent : BlockNode :=
  ⟨zeroBlock, 0, Block.id b + 1, 0, [0, 1, 2, 3, 4, 5, 6, 7, 8, 9, 10], [], [], []⟩

def s0 : State where
  BadBlocks := fun _ => false
  BlockMap := fun _ => none
  CurrentBlock := 0
  CurrentPath := fun _ => none
  UnspentOutputs := fun _ => none
  OpenContracts := []
  BlockRoot := zeroNode

end S6

namespace S7

def b : Block := ⟨0, 6, 1, merkleRootTxs [], 0, []⟩

/-- Parent whose target equals the block ID exactly; timestamps 0..10 put the
median at 5, strictly below the block timestamp 6. -/
def parent : BlockNode :=
  ⟨zeroBlock, 0, Block.id b, 0, [0, 1, 2, 3, 4, 5, 6, 7, 8, 9, 10], [], [], []⟩

def s0 : State := S6.s0

end S7

namespace S8

def tip : BlockNode := ⟨zeroBlock, 0, 100, 64, [], [], [], []⟩

def n : BlockNode := ⟨zeroBlock, 1, 100, 60, [], [], [], []⟩

def s0 : State where
  BadBlocks := fun _ => false
  BlockMap := fun x => if x = 0 then some tip else none
  CurrentBlock := 0
  CurrentPath := fun _ => none
  UnspentOutputs := fun _ => none
  OpenContracts := []
  BlockRoot := tip

end S8

namespace S10

def root : Block := ⟨0, 0, 0, 0, 0, []⟩

def rootN : BlockNode := ⟨root, 0, 2 ^ 254, 1, [], [], [], []⟩

def newB : Block := ⟨0, 1200, 0, 0, 0, []⟩

/-- Child at height 1 (below the target window), 1200 seconds after the root,
with a block frequency of 600: the raw adjustment is 2. -/
def newN : BlockNode := ⟨newB, 1, 0, 0, [], [], [], []⟩

def parentN : BlockNode := ⟨root, 0, 2 ^ 254, 1, [], [], [], []⟩

def s0 : State where
  BadBlocks := fun _ => false
  BlockMap := fun _ => none
  CurrentBlock := 0
  CurrentPath := fun _ => none
  UnspentOutputs := fun _ => none
  OpenContracts := []
  BlockRoot := rootN

end S10

end Sia

namespace Sia

/-! ### General lemmas about the map helpers -/

theorem delList_apply (ks : List OutputID) (m : OutputID → Option Output) (k : OutputID) :
    delList ks m k = if k ∈ ks then none else m k := by
  induction ks generalizing m with
  | nil => simp [delList]
  | cons a ks ih =>
    show delList ks (delFun m a) k = _
    rw [ih]
    by_cases hk : k ∈ ks
    · simp [hk]
    · by_cases hka : k = a <;> simp [delFun, hk, hka]

theorem setList_apply_not_mem (ps : List (OutputID × Output)) (m : OutputID → Option Output)
    (k : OutputID) (h : k ∉ ps.map Prod.fst) : setList ps m k = m k := by
  induction ps generalizing m with
  | nil => rfl
  | cons p ps ih =>
    simp only [List.map_cons, List.mem_cons, not_or] at h
    show setList ps (setFun m p.1 p.2) k = m k
    rw [ih _ h.2]
    simp [setFun, h.1]

theorem setList_apply_mem (ps : List (OutputID × Output)) (m : OutputID → Option Output)
    (k : OutputID) (o : Output) (hmem : (k, o) ∈ ps) (hnd : (ps.map Prod.fst).Nodup) :
    setList ps m k = some o := by
  induction ps generalizing m with
  | nil => cases hmem
  | cons p ps ih =>
    simp only [List.map_cons, List.nodup_cons] at hnd
    rcases List.mem_cons.mp hmem with h | h
    · show setList ps (setFun m p.1 p.2) k = some o
      have hk : k ∉ ps.map Prod.fst := by rw [← h] at hnd; exact hnd.1
      rw [setList_apply_not_mem _ _ _ hk]
      simp [setFun, ← h]
    · exact ih _ h hnd.2

end Sia

namespace Sia

/-- Claim C1 (refuted): applying the empty valid block `S1.b` to `S1.s0` by
`integrateBlock` and reversing it with `rewindABlock` does not restore the
initial state: the miner-subsidy output created by integration survives the
rewind, the `CurrentPath` entry at the parent's height 3 is deleted while the
entry at height 4 (the integrated block's) survives, even though `CurrentBlock`
is restored. -/
theorem C1_apply_reverse_not_roundtrip :
    S1.s0.UnspentOutputs (Block.SubsidyID S1.b) = none ∧
    S1.s0.CurrentPath 3 = some (Block.id S1.g) ∧
    S1.s0.CurrentPath 4 = none ∧
    (((integrateBlock S1.s0 S1.b).bind fun p => rewindABlock p.1).map fun s =>
        (s.UnspentOutputs (Block.SubsidyID S1.b), s.CurrentPath 3,
         decide (s.CurrentPath 4 = some (Block.id S1.b)),
         decide (s.CurrentBlock = S1.s0.CurrentBlock)))
      = some (some ⟨1000, 7⟩, none, true, true) := by
  refine ⟨rfl, rfl, rfl, by decide⟩

/-- Claim C2 (refuted): integrating `S2.b` (whose parent `S2.g` is the tip and
holds one open contract that misses its window) produces no error, yet the
`MissedStorageProof` undo record is appended to the parent `S2.g`'s node while
the undo log of `S2.b`'s own node stays empty; consequently rewinding `S2.b`
consumes an empty log, so the missed-proof output (value 50) and the contract's
debit (funds 50, failures 1) survive the rewind. -/
theorem C2_undo_log_lands_on_parent :
    (integrateBlock S2.s0 S2.b).map
      (fun p => (p.2,
        (p.1.BlockMap (Block.id S2.g)).map BlockNode.MissedStorageProofs,
        (p.1.BlockMap (Block.id S2.b)).map BlockNode.MissedStorageProofs))
      = some (none, some [⟨OutputID.storageProof 7 3 false, 7⟩], some []) ∧
    (((integrateBlock S2.s0 S2.b).bind fun p => rewindABlock p.1).map
      (fun s => ((s.UnspentOutputs (OutputID.storageProof 7 3 false)).map Output.Value,
        (ocLookup s.OpenContracts 7).map (fun c => (c.FundsRemaining, c.Failures)))))
      = some (some 50, some (50, 1)) := by
  exact ⟨by decide, by decide⟩

/-- Claim C3 (counterexample): the block `S2.b` being integrated has height 4,
and with `start = 1`, `challengeFrequency = 2` the claim's condition
`(4 − 1) mod 2 == 0` fails, so per the claim no window may roll over during
`integrateBlock(S2.b)`; yet the code creates the missed-proof output (at an ID
derived from the parent's height 3) and debits the contract. -/
theorem C3_counterexample :
    (S2.s0.BlockMap (Block.id S2.b)).map BlockNode.Height = some 4 ∧
    S2.fc.Start = 1 ∧ S2.fc.ChallengeFrequency = 2 ∧ ¬ (4 - 1) % 2 = 0 ∧
    (integrateBlock S2.s0 S2.b).map
      (fun p => (p.1.UnspentOutputs (OutputID.storageProof S2.c.ContractID 3 false), p.2))
      = some (some ⟨50, 9⟩, none) := by
  refine ⟨by decide, rfl, rfl, by decide, by decide⟩

/-- Claim C4 (refuted): in scenario S4 the fork g ← b1 ← b2 displaces the
chain g ← a1; integrating `b1` fails (invalid transaction), the subtree
{b1, b2} is invalidated (both end up in BadBlocks), the rewound block `a1` is
restored as the tip - and `forkBlockchain` returns no error, because the
restoration loop overwrote the `err` variable. -/
theorem C4_reorg_error_lost :
    (forkBlockchain 10 S4.s0 S4.b2N).map
      (fun p => (p.2, p.1.BadBlocks (Block.id S4.b1), p.1.BadBlocks (Block.id S4.b2),
        decide (p.1.CurrentBlock = Block.id S4.a1)))
      = some (none, true, true, true) := by
  decide

/-- Claim C6 (counterexample): with the parent's recent timestamps 0..10 the
median (sorted index 5) is 5; the block `S6.b` has timestamp exactly 5, yet
`validateHeader` accepts it outright (no error at all) and does not put it in
`BadBlocks` - the claim requires rejection at equality. -/
theorem C6_counterexample :
    S6.b.Timestamp = medianTimestamp S6.parent ∧
    (validateHeader 100 5 S6.s0 S6.parent S6.b).2 = none ∧
    (validateHeader 100 5 S6.s0 S6.parent S6.b).1.BadBlocks (Block.id S6.b) = false := by
  refine ⟨by decide, by decide, by decide⟩

/-- Claim C6 (amended): when the future-skew check passes, `validateHeader`
fails with the timestamp-too-early error exactly when `b.Timestamp` is
strictly below the median (the sorted element at index 5) of the parent's
recent timestamps - equality passes the check - and on that failure the block
is added to `BadBlocks`. -/
theorem C6_timestamp_strictly_early (ft now : Timestamp) (s : State) (parent : BlockNode)
    (b : Block) (hskew : b.Timestamp - now ≤ ft) :
    ((validateHeader ft now s parent b).2 = some Err.earlyTimestamp ↔
      b.Timestamp < medianTimestamp parent) ∧
    (b.Timestamp < medianTimestamp parent →
      (validateHeader ft now s parent b).1.BadBlocks (Block.id b) = true) := by
  have h1 : ¬ ft < b.Timestamp - now := not_lt.mpr hskew
  unfold validateHeader
  rw [if_neg h1]
  split_ifs with h2 h3 h4 <;> simp_all [insertBad]

/-- Witness for the amended claim C6 at the concrete scenario S6. -/
theorem C6_witness :
    S6.b.Timestamp - 5 ≤ 100 ∧
    (((validateHeader 100 5 S6.s0 S6.parent S6.b).2 = some Err.earlyTimestamp ↔
        S6.b.Timestamp < medianTimestamp S6.parent) ∧
      (S6.b.Timestamp < medianTimestamp S6.parent →
        (validateHeader 100 5 S6.s0 S6.parent S6.b).1.BadBlocks (Block.id S6.b) = true)) :=
  ⟨by decide, C6_timestamp_strictly_early 100 5 S6.s0 S6.parent S6.b (by decide)⟩

/-- Claim C7 (counterexample): the parent's target equals `S7.b`'s ID exactly,
and `validateHeader` accepts the block (no target-not-met error) - the claim
requires rejection at equality. -/
theorem C7_counterexample :
    S7.parent.Target = Block.id S7.b ∧
    (validateHeader 100 5 S7.s0 S7.parent S7.b).2 = none := by
  refine ⟨rfl, by decide⟩

/-- Claim C7 (amended): when the earlier header checks pass, `validateHeader`
fails with the target-not-met error exactly when the block ID is strictly
greater than the parent's target (numeric comparison of the 32-byte big-endian
values; a block whose ID equals the target is accepted), and in either case the
state - in particular `BadBlocks` - is unchanged. -/
theorem C7_target_strictly_above (ft now : Timestamp) (s : State) (parent : BlockNode) (b : Block)
    (hskew : b.Timestamp - now ≤ ft)
    (hmed : ¬ b.Timestamp < medianTimestamp parent)
    (hmerkle : b.MerkleRoot = Block.expectedTransactionMerkleRoot b) :
    validateHeader ft now s parent b =
      (s, if parent.Target < Block.id b then some Err.targetNotMet else none) := by
  have h1 : ¬ ft < b.Timestamp - now := not_lt.mpr hskew
  unfold validateHeader checkTarget
  rw [if_neg h1, if_neg hmed, if_neg (by simp [hmerkle])]
  by_cases ht : parent.Target < Block.id b
  · rw [if_pos (by simp [decide_eq_false_iff_not, not_le, ht]), if_pos ht]
  · rw [if_neg (by simp [not_lt.mp ht]), if_neg ht]

/-- Witness for the amended claim C7 at the concrete scenario S7. -/
theorem C7_witness :
    S7.b.Timestamp - 5 ≤ 100 ∧
    ¬ S7.b.Timestamp < medianTimestamp S7.parent ∧
    validateHeader 100 5 S7.s0 S7.parent S7.b =
      (S7.s0, if S7.parent.Target < Block.id S7.b then some Err.targetNotMet else none) :=
  ⟨by decide, by decide,
    C7_target_strictly_above 100 5 S7.s0 S7.parent S7.b (by decide) (by decide) rfl⟩

/-- Claim C8: `heavierFork(n)` returns true precisely when
`1/depth(n) > 1/depth(tip) + (5/100) · (1/target(tip))` as exact rationals,
the 32-byte arrays being read as big-endian unsigned integers (the stored
numeric values). -/
theorem C8_heavierFork_iff (s : State) (newNode tip : BlockNode)
    (h : s.BlockMap s.CurrentBlock = some tip)
    (h1 : ¬ tip.Target = 0) (h2 : ¬ tip.Depth = 0) (h3 : ¬ newNode.Depth = 0) :
    (heavierFork s newNode = some true ↔
      1 / (tip.Depth : ℚ) + (5 / 100) * (1 / (tip.Target : ℚ)) < 1 / (newNode.Depth : ℚ)) := by
  unfold heavierFork SurpassThreshold
  rw [h]
  have hcond : ¬ (tip.Target = 0 ∨ tip.Depth = 0 ∨ newNode.Depth = 0) := by simp [h1, h2, h3]
  simp only [hcond, if_false, Option.some_inj, decide_eq_true_eq]
  rw [mul_comm]

/-- Witness for claim C8 at the concrete scenario S8:
1/60 > 1/64 + (5/100) · (1/100). -/
theorem C8_witness :
    S8.s0.BlockMap S8.s0.CurrentBlock = some S8.tip ∧
    (heavierFork S8.s0 S8.n = some true ↔
      1 / (S8.tip.Depth : ℚ) + (5 / 100) * (1 / (S8.tip.Target : ℚ)) < 1 / (S8.n.Depth : ℚ)) :=
  ⟨by decide, C8_heavierFork_iff S8.s0 S8.n S8.tip (by decide) (by decide) (by decide) (by decide)⟩

end Sia

namespace Modules

/-- Claim C9: when the encoded response fits the `MaxErrorSize` bound (so it
decodes successfully), `ReadNegotiationAcceptance` returns nil exactly when the
decoded string is the literal accept response; any other decoded string `str` is
returned as an error whose message is `str`; and the bound passed to the reader
is `MaxErrorSize = 256`. -/
theorem C9_read_negotiation_acceptance (data : List Char) (hlen : data.length ≤ MaxErrorSize) :
    (ReadNegotiationAcceptance data = none ↔ String.mk data = AcceptResponse) ∧
    (¬ String.mk data = AcceptResponse →
      ReadNegotiationAcceptance data = some (String.mk data)) ∧
    MaxErrorSize = 256 := by
  have h1 : ¬ MaxErrorSize < data.length := not_lt.mpr hlen
  unfold ReadNegotiationAcceptance readObject
  rw [if_neg h1]
  by_cases he : String.mk data = AcceptResponse <;> simp [he, MaxErrorSize]

/-- Witness for claim C9 at a concrete rejected response. -/
theorem C9_witness :
    ("reject".toList).length ≤ MaxErrorSize ∧
    ((ReadNegotiationAcceptance ("reject".toList) = none ↔
        String.mk ("reject".toList) = AcceptResponse) ∧
      (¬ String.mk ("reject".toList) = AcceptResponse →
        ReadNegotiationAcceptance ("reject".toList) = some (String.mk ("reject".toList))) ∧
      MaxErrorSize = 256) :=
  ⟨by decide, C9_read_negotiation_acceptance ("reject".toList) (by decide)⟩

end Modules

namespace Sia

/-- For a valid transaction, reversing after applying restores the unspent-output
map exactly. -/
theorem revU_appU (u : OutputID → Option Output) (t : Transaction)
    (hv : validTransactionU u t = true) :
    setList t.Inputs (delList (t.Outputs.map Prod.fst)
      (setList t.Outputs (delList (t.Inputs.map Prod.fst) u))) = u := by
  simp only [validTransactionU, Bool.and_eq_true, List.all_eq_true, decide_eq_true_eq] at hv
  obtain ⟨⟨⟨⟨hin, hinnd⟩, hout⟩, houtnd⟩, -⟩ := hv
  funext k
  by_cases hk : k ∈ t.Inputs.map Prod.fst
  · obtain ⟨p, hp, hpk⟩ := List.mem_map.mp hk
    have hmem : (k, p.2) ∈ t.Inputs := by rw [← hpk]; simpa using hp
    rw [setList_apply_mem t.Inputs _ k p.2 hmem hinnd, ← hpk]
    exact (hin p hp).symm
  · rw [setList_apply_not_mem _ _ _ hk, delList_apply]
    by_cases hko : k ∈ t.Outputs.map Prod.fst
    · obtain ⟨p, hp, hpk⟩ := List.mem_map.mp hko
      simp only [hko, if_true]
      rw [← hpk]
      exact (hout p hp).symm
    · simp only [hko, if_false]
      rw [setList_apply_not_mem _ _ _ hko, delList_apply]
      simp [hk]

/-- For a valid transaction, `reverseTransaction` after `applyTransaction` is
the identity on the state, uniformly in any later change to `BadBlocks`. -/
theorem reverseTransaction_applyTransaction (s : State) (t : Transaction)
    (β : BlockID → Bool) (hv : validTransaction s t = true) :
    reverseTransaction { applyTransaction s t with BadBlocks := β } t
      = { s with BadBlocks := β } := by
  show ({ s with
      UnspentOutputs := setList t.Inputs (delList (t.Outputs.map Prod.fst)
        (setList t.Outputs (delList (t.Inputs.map Prod.fst) s.UnspentOutputs))),
      BadBlocks := β } : State) = { s with BadBlocks := β }
  rw [revU_appU s.UnspentOutputs t hv]

/-- The transaction loop only ever reports the invalid-transaction error. -/
theorem integrateTxLoop_err_inv (bid : BlockID) :
    ∀ (ts : List Transaction) (s : State) (sub : Currency) (e : Err),
      (integrateTxLoop bid s ts sub).err = some e → e = Err.invalidTransaction := by
  intro ts
  induction ts with
  | nil => intro s sub e h; simp [integrateTxLoop] at h
  | cons t ts ih =>
    intro s sub e h
    by_cases hv : validTransaction s t
    · rw [integrateTxLoop, if_pos hv] at h
      exact ih _ _ e h
    · rw [integrateTxLoop, if_neg hv] at h
      simpa using h.symm

/-- When the transaction loop fails, folding `reverseTransaction` over the
applied transactions in reverse order restores the state at loop entry, except
that the block has been marked bad. -/
theorem integrateTxLoop_rollback (bid : BlockID) :
    ∀ (ts : List Transaction) (s : State) (sub : Currency) (e : Err),
      (integrateTxLoop bid s ts sub).err = some e →
      (integrateTxLoop bid s ts sub).applied.reverse.foldl reverseTransaction
          (integrateTxLoop bid s ts sub).state
        = { s with BadBlocks := insertBad s.BadBlocks bid } := by
  intro ts
  induction ts with
  | nil => intro s sub e h; simp [integrateTxLoop] at h
  | cons t ts ih =>
    intro s sub e h
    by_cases hv : validTransaction s t
    · rw [integrateTxLoop, if_pos hv] at h ⊢
      rw [List.reverse_cons, List.foldl_append, List.foldl_cons, List.foldl_nil]
      rw [ih (applyTransaction s t) (sub + t.MinerFees.sum) e h]
      exact reverseTransaction_applyTransaction s t _ hv
    · rw [integrateTxLoop, if_neg hv]
      simp

/-- Claim C5: if some transaction of `b` fails validation during
`integrateBlock(b)`, then `integrateBlock` returns the invalid-transaction
error, the ledger (UnspentOutputs, OpenContracts) and the tip bookkeeping
(CurrentBlock, CurrentPath, BlockMap) are exactly their pre-call values - every
applied transaction having been reversed in reverse order - and `b`'s ID is in
`BadBlocks`, which changes in no other entry. -/
theorem C5_invalid_transaction_rolls_back (s : State) (b : Block)
    (hfail : (integrateTxLoop (Block.id b) s b.Transactions 0).err.isSome = true) :
    ∃ s1, integrateBlock s b = some (s1, some Err.invalidTransaction) ∧
      s1.UnspentOutputs = s.UnspentOutputs ∧
      s1.OpenContracts = s.OpenContracts ∧
      s1.CurrentBlock = s.CurrentBlock ∧
      s1.CurrentPath = s.CurrentPath ∧
      s1.BlockMap = s.BlockMap ∧
      s1.BadBlocks (Block.id b) = true ∧
      ∀ x, ¬ x = Block.id b → s1.BadBlocks x = s.BadBlocks x := by
  obtain ⟨e, he⟩ := Option.isSome_iff_exists.mp hfail
  have hinv := integrateTxLoop_err_inv (Block.id b) b.Transactions s 0 e he
  subst hinv
  refine ⟨{ s with BadBlocks := insertBad s.BadBlocks (Block.id b) }, ?_, rfl, rfl, rfl, rfl, rfl,
    by simp [insertBad], fun x hx => by simp [insertBad, hx]⟩
  simp only [integrateBlock, he]
  rw [integrateTxLoop_rollback (Block.id b) b.Transactions s 0 Err.invalidTransaction he]

/-- Witness for claim C5: in scenario S5 the block carries a valid transaction
followed by an invalid one, the loop fails, and the rollback conclusion holds. -/
theorem C5_witness :
    (integrateTxLoop (Block.id S5.b) S5.s0 S5.b.Transactions 0).err.isSome = true ∧
    (∃ s1, integrateBlock S5.s0 S5.b = some (s1, some Err.invalidTransaction) ∧
      s1.UnspentOutputs = S5.s0.UnspentOutputs ∧
      s1.OpenContracts = S5.s0.OpenContracts ∧
      s1.CurrentBlock = S5.s0.CurrentBlock ∧
      s1.CurrentPath = S5.s0.CurrentPath ∧
      s1.BlockMap = S5.s0.BlockMap ∧
      s1.BadBlocks (Block.id S5.b) = true ∧
      ∀ x, ¬ x = Block.id S5.b → s1.BadBlocks x = S5.s0.BadBlocks x) :=
  ⟨by decide, C5_invalid_transaction_rolls_back S5.s0 S5.b (by decide)⟩

end Sia

namespace Sia

theorem contractAfterWindow_cid (h : BlockHeight) (c : OpenContract) :
    (contractAfterWindow h c).ContractID = c.ContractID := by
  unfold contractAfterWindow; split_ifs <;> rfl

theorem contractAfterWindow_fc (h : BlockHeight) (c : OpenContract) :
    (contractAfterWindow h c).FileContract = c.FileContract := by
  unfold contractAfterWindow; split_ifs <;> rfl

/-- The post-window contract computed by `windowStep` is `contractAfterWindow`. -/
theorem windowStep_fst (h : BlockHeight) (acc : MaintAcc) (c : OpenContract) :
    (windowStep h acc c).1 = contractAfterWindow h c := by
  unfold windowStep contractAfterWindow
  by_cases h1 : rolloverAt h c
  · have e1 : ((h - c.FileContract.Start) % c.FileContract.ChallengeFrequency = 0 ∧
        c.FileContract.Start < h) := h1
    rw [if_pos e1, if_pos h1]
    by_cases h2 : c.WindowSatisfied = false
    · rw [if_pos h2, if_pos h2]
      by_cases h3 : c.FundsRemaining < c.FileContract.MissedProofPayout
      · have hmin : min c.FileContract.MissedProofPayout c.FundsRemaining = c.FundsRemaining :=
          min_eq_right (le_of_lt h3)
        rw [if_pos h3, hmin]
      · have hmin : min c.FileContract.MissedProofPayout c.FundsRemaining =
            c.FileContract.MissedProofPayout := min_eq_left (le_of_not_lt h3)
        rw [if_neg h3, hmin]
    · rw [if_neg h2, if_neg h2]
  · have e1 : ¬ ((h - c.FileContract.Start) % c.FileContract.ChallengeFrequency = 0 ∧
        c.FileContract.Start < h) := h1
    rw [if_neg e1, if_neg h1]

/-- The accumulator after `windowStep`: exactly on a rollover of an unsatisfied
window, the missed-proof output and its undo record are added. -/
theorem windowStep_snd (h : BlockHeight) (acc : MaintAcc) (c : OpenContract) :
    (windowStep h acc c).2 =
      if rolloverAt h c ∧ c.WindowSatisfied = false then
        { acc with
            unspent := setFun acc.unspent (OutputID.storageProof c.ContractID h false)
              ⟨min c.FileContract.MissedProofPayout c.FundsRemaining,
               c.FileContract.MissedProofAddress⟩,
            msps := acc.msps ++ [⟨OutputID.storageProof c.ContractID h false, c.ContractID⟩] }
      else acc := by
  unfold windowStep
  by_cases h1 : rolloverAt h c
  · have e1 : ((h - c.FileContract.Start) % c.FileContract.ChallengeFrequency = 0 ∧
        c.FileContract.Start < h) := h1
    rw [if_pos e1]
    by_cases h2 : c.WindowSatisfied = false
    · rw [if_pos h2, if_pos (show rolloverAt h c ∧ c.WindowSatisfied = false from ⟨h1, h2⟩)]
      by_cases h3 : c.FundsRemaining < c.FileContract.MissedProofPayout
      · have hmin : min c.FileContract.MissedProofPayout c.FundsRemaining = c.FundsRemaining :=
          min_eq_right (le_of_lt h3)
        rw [if_pos h3, hmin]
      · have hmin : min c.FileContract.MissedProofPayout c.FundsRemaining =
            c.FileContract.MissedProofPayout := min_eq_left (le_of_not_lt h3)
        rw [if_neg h3, hmin]
    · rw [if_neg h2, if_neg (fun hx => h2 hx.2)]
  · have e1 : ¬ ((h - c.FileContract.Start) % c.FileContract.ChallengeFrequency = 0 ∧
        c.FileContract.Start < h) := h1
    rw [if_neg e1, if_neg (fun hx => h1 hx.1)]

theorem terminationStep_unspent_sp (h : BlockHeight) (acc : MaintAcc) (c1 : OpenContract)
    (x : ContractID) (y : BlockHeight) (z : Bool) :
    (terminationStep h acc c1).unspent (OutputID.storageProof x y z) =
      acc.unspent (OutputID.storageProof x y z) := by
  unfold terminationStep
  split_ifs <;> simp [setFun]

theorem terminationStep_contracts (h : BlockHeight) (acc : MaintAcc) (c1 : OpenContract) :
    (terminationStep h acc c1).contracts = acc.contracts ++ [c1] := by
  unfold terminationStep
  split_ifs <;> rfl

theorem terminationStep_toDelete (h : BlockHeight) (acc : MaintAcc) (c1 : OpenContract) :
    (terminationStep h acc c1).toDelete =
      acc.toDelete ++
        (if c1.FundsRemaining = 0 ∨ c1.FileContract.End = h ∨
            c1.FileContract.Tolerance = c1.Failures then [c1.ContractID] else []) := by
  unfold terminationStep
  split_ifs <;> simp

theorem terminationStep_panicked (h : BlockHeight) (acc : MaintAcc) (c1 : OpenContract) :
    (terminationStep h acc c1).panicked = acc.panicked := by
  unfold terminationStep
  split_ifs <;> rfl

theorem windowStep_snd_panicked (h : BlockHeight) (acc : MaintAcc) (c : OpenContract) :
    (windowStep h acc c).2.panicked = acc.panicked := by
  rw [windowStep_snd]; split_ifs <;> rfl

theorem windowStep_snd_contracts (h : BlockHeight) (acc : MaintAcc) (c : OpenContract) :
    (windowStep h acc c).2.contracts = acc.contracts := by
  rw [windowStep_snd]; split_ifs <;> rfl

theorem windowStep_snd_toDelete (h : BlockHeight) (acc : MaintAcc) (c : OpenContract) :
    (windowStep h acc c).2.toDelete = acc.toDelete := by
  rw [windowStep_snd]; split_ifs <;> rfl

theorem maintainOne_eq (h : BlockHeight) (acc : MaintAcc) (c : OpenContract)
    (hfreq : ¬ c.FileContract.ChallengeFrequency = 0) :
    maintainOne h acc c = terminationStep h (windowStep h acc c).2 (windowStep h acc c).1 := by
  unfold maintainOne; rw [if_neg hfreq]

/-- Claim C3 (amended): contract maintenance inside `integrateBlock(b)` runs at
the height of the tip at entry - b's parent's height `p = h − 1`, not b's
height `h`.  For a state with one open contract and an empty block: the
integration succeeds, a missed-proof output (paying
`min(missedProofPayout, fundsRemaining)` to the missed-proof address, at the ID
derived from `(contractID, p, false)`) is created exactly when
`(p − start) mod challengeFrequency == 0 ∧ p > start` and the window is
unsatisfied, and the contract is removed from `OpenContracts` exactly when,
after the window step, `fundsRemaining == 0`, `end == p`, or
`failures == tolerance`. -/
theorem C3_contract_maintenance (s : State) (b : Block) (c : OpenContract) (pn bn : BlockNode)
    (hn : s.BlockMap s.CurrentBlock = some pn)
    (hb : s.BlockMap (Block.id b) = some bn)
    (hne : ¬ Block.id b = s.CurrentBlock)
    (hoc : s.OpenContracts = [c])
    (htx : b.Transactions = [])
    (hfreq : ¬ c.FileContract.ChallengeFrequency = 0)
    (hkey : s.UnspentOutputs (OutputID.storageProof c.ContractID pn.Height false) = none) :
    ∃ s1, integrateBlock s b = some (s1, none) ∧
      s1.UnspentOutputs (OutputID.storageProof c.ContractID pn.Height false) =
        (if rolloverAt pn.Height c ∧ c.WindowSatisfied = false then
          some ⟨min c.FileContract.MissedProofPayout c.FundsRemaining,
                c.FileContract.MissedProofAddress⟩
         else none) ∧
      (ocLookup s1.OpenContracts c.ContractID = none ↔ terminatesAt pn.Height c) := by
  simp only [integrateBlock, htx, integrateTxLoop, hoc, hn, List.foldl_cons, List.foldl_nil]
  rw [maintainOne_eq pn.Height ⟨s.UnspentOutputs, [], [], [], [], false⟩ c hfreq]
  rw [terminationStep_panicked, windowStep_snd_panicked, windowStep_fst]
  simp only [Bool.false_eq_true, if_false, integrateFinish]
  simp only [setFun, if_neg hne, hb]
  refine ⟨_, rfl, ?_, ?_⟩
  · show (setFun (terminationStep pn.Height _ _).unspent (Block.SubsidyID b) ⟨0 + 1000, b.MinerAddress⟩)
      (OutputID.storageProof c.ContractID pn.Height false) = _
    rw [setFun]
    rw [if_neg (by simp [Block.SubsidyID])]
    rw [terminationStep_unspent_sp, windowStep_snd]
    split_ifs with hcond
    · simp [setFun]
    · exact hkey
  · show ocLookup (List.filter _ (terminationStep pn.Height _ _).contracts) c.ContractID = none ↔ _
    rw [terminationStep_contracts, windowStep_snd_contracts]
    rw [terminationStep_toDelete, windowStep_snd_toDelete]
    simp only [List.nil_append]
    rw [contractAfterWindow_fc]
    by_cases ht : terminatesAt pn.Height c
    · have ht2 : ((contractAfterWindow pn.Height c).FundsRemaining = 0 ∨
          c.FileContract.End = pn.Height ∨
          c.FileContract.Tolerance = (contractAfterWindow pn.Height c).Failures) := ht
      rw [if_pos ht2]
      simp [ocLookup, List.filter, contractAfterWindow_cid, ht]
    · have ht2 : ¬ ((contractAfterWindow pn.Height c).FundsRemaining = 0 ∨
          c.FileContract.End = pn.Height ∨
          c.FileContract.Tolerance = (contractAfterWindow pn.Height c).Failures) := ht
      rw [if_neg ht2]
      simp [ocLookup, List.filter, List.find?, contractAfterWindow_cid, ht]

/-- Witness for the amended claim C3 at the concrete scenario S2: parent height
3, start 1, frequency 2, unsatisfied window - the window rolls over at the
parent's height and the contract survives. -/
theorem C3_witness :
    S2.s0.BlockMap S2.s0.CurrentBlock = some S2.gN ∧
    S2.s0.BlockMap (Block.id S2.b) = some S2.bN ∧
    ¬ Block.id S2.b = S2.s0.CurrentBlock ∧
    (∃ s1, integrateBlock S2.s0 S2.b = some (s1, none) ∧
      s1.UnspentOutputs (OutputID.storageProof S2.c.ContractID S2.gN.Height false) =
        (if rolloverAt S2.gN.Height S2.c ∧ S2.c.WindowSatisfied = false then
          some ⟨min S2.c.FileContract.MissedProofPayout S2.c.FundsRemaining,
                S2.c.FileContract.MissedProofAddress⟩
         else none) ∧
      (ocLookup s1.OpenContracts S2.c.ContractID = none ↔ terminatesAt S2.gN.Height S2.c)) :=
  ⟨by decide, by decide, by decide,
    C3_contract_maintenance S2.s0 S2.b S2.c S2.gN S2.bN (by decide) (by decide) (by decide)
      rfl rfl (by decide) rfl⟩

end Sia

namespace Sia

theorem natToBytesBE_zero : natToBytesBE 0 = [] := by
  rw [natToBytesBE]
  simp

theorem natToBytesBE_pos (n : Nat) (h : ¬ n = 0) :
    natToBytesBE n = natToBytesBE (n / 256) ++ [n % 256] := by
  rw [natToBytesBE]
  rw [dif_neg h]

theorem natToBytesBE_len_le (k : Nat) : ∀ n : Nat, n < 256 ^ k → (natToBytesBE n).length ≤ k := by
  induction k with
  | zero =>
    intro n h
    have : n = 0 := by simpa using h
    simp [this, natToBytesBE_zero]
  | succ k ih =>
    intro n h
    by_cases h0 : n = 0
    · simp [h0, natToBytesBE_zero]
    · rw [natToBytesBE_pos n h0]
      have hdiv : n / 256 < 256 ^ k := by
        rw [Nat.div_lt_iff_lt_mul (by norm_num)]
        calc n < 256 ^ (k + 1) := h
          _ = 256 ^ k * 256 := by rw [pow_succ]
      have := ih _ hdiv
      simp only [List.length_append, List.length_cons, List.length_nil]
      omega

theorem natToBytesBE_len_gt (k : Nat) : ∀ n : Nat, 256 ^ k ≤ n → k < (natToBytesBE n).length := by
  induction k with
  | zero =>
    intro n h
    have h0 : ¬ n = 0 := by simpa using Nat.one_le_iff_ne_zero.mp h
    rw [natToBytesBE_pos n h0]
    simp
  | succ k ih =>
    intro n h
    have hpos : 0 < (256 : Nat) ^ (k + 1) := pow_pos (by norm_num) _
    have h0 : ¬ n = 0 := by omega
    rw [natToBytesBE_pos n h0]
    have hdiv : 256 ^ k ≤ n / 256 := by
      rw [Nat.le_div_iff_mul_le (by norm_num)]
      calc 256 ^ k * 256 = 256 ^ (k + 1) := (pow_succ 256 k).symm
        _ ≤ n := h
    have := ih _ hdiv
    simp only [List.length_append, List.length_cons, List.length_nil]
    omega

theorem fromBytesBE_append_singleton (l : List Nat) (b : Nat) :
    fromBytesBE (l ++ [b]) = fromBytesBE l * 256 + b := by
  unfold fromBytesBE
  rw [List.foldl_append]
  rfl

theorem fromBytesBE_natToBytesBE (n : Nat) : fromBytesBE (natToBytesBE n) = n := by
  induction n using Nat.strong_induction_on with
  | _ n ih =>
    by_cases h0 : n = 0
    · simp [h0, natToBytesBE_zero]; rfl
    · rw [natToBytesBE_pos n h0, fromBytesBE_append_singleton,
        ih (n / 256) (Nat.div_lt_self (Nat.pos_of_ne_zero h0) (by omega))]
      omega

theorem fromBytesBE_replicate_zero (k : Nat) (l : List Nat) :
    fromBytesBE (List.replicate k 0 ++ l) = fromBytesBE l := by
  induction k with
  | zero => simp
  | succ k ih =>
    rw [List.replicate_succ, List.cons_append]
    have hz : fromBytesBE (0 :: (List.replicate k 0 ++ l)) =
        fromBytesBE (List.replicate k 0 ++ l) := by
      unfold fromBytesBE
      simp
    rw [hz, ih]

/-- Claim C10: `childTarget` is total only when the truncated adjusted target
fits in 32 bytes.  Whenever the adjusted target value `v` (the floor of
`parent.Target · clamped-adjustment`) computed by the source is at least
`2^256`, the byte string exceeds 32 bytes, the copy offset is negative and the
slice expression panics (`none`); under the precondition `v < 2^256` the
function returns exactly `v` truncated toward zero, as its minimal big-endian
bytes left-padded with zero bytes to the 32-byte width (decoding back to
`v`). -/
theorem C10_childTarget_overflow_panics (bf : Timestamp) (tw : Nat) (mu md : ℚ)
    (s : State) (pn nn : BlockNode) (v : Int)
    (hv : adjustedTargetValue bf tw mu md s pn nn = some v) (h0 : 0 ≤ v) :
    ((2 : Int) ^ 256 ≤ v → childTarget bf tw mu md s pn nn = none) ∧
    (v < (2 : Int) ^ 256 →
      childTarget bf tw mu md s pn nn =
        some (List.replicate (32 - (natToBytesBE v.toNat).length) 0 ++ natToBytesBE v.toNat) ∧
      (List.replicate (32 - (natToBytesBE v.toNat).length) 0 ++ natToBytesBE v.toNat).length = 32 ∧
      fromBytesBE (List.replicate (32 - (natToBytesBE v.toNat).length) 0 ++ natToBytesBE v.toNat)
        = v.toNat) := by
  have habs : v.natAbs = v.toNat := by omega
  have hpow : (256 : Nat) ^ 32 = 2 ^ 256 := by norm_num
  have hct : childTarget bf tw mu md s pn nn =
      (if 32 < (natToBytesBE v.toNat).length then none
       else some (List.replicate (32 - (natToBytesBE v.toNat).length) 0 ++ natToBytesBE v.toNat)) := by
    unfold childTarget
    rw [hv]
    show (if 32 < (natToBytesBE v.natAbs).length then none
      else some (List.replicate (32 - (natToBytesBE v.natAbs).length) 0 ++ natToBytesBE v.natAbs))
      = _
    rw [habs]
  rw [hct]
  constructor
  · intro hge
    have hge2 : (256 : Nat) ^ 32 ≤ v.toNat := by
      rw [hpow]
      omega
    have hlen := natToBytesBE_len_gt 32 v.toNat hge2
    rw [if_pos hlen]
  · intro hlt
    have hlt2 : v.toNat < (256 : Nat) ^ 32 := by
      rw [hpow]
      omega
    have hlen := natToBytesBE_len_le 32 v.toNat hlt2
    rw [if_neg (not_lt.mpr hlen)]
    refine ⟨rfl, ?_, ?_⟩
    · simp only [List.length_append, List.length_replicate]
      omega
    · rw [fromBytesBE_replicate_zero, fromBytesBE_natToBytesBE]

/-- Witness for claim C10 at the concrete scenario S10: parent target `2^254`,
raw adjustment 2 (1200 seconds over an expected 600), adjusted value `2^255`,
which fits in 32 bytes. -/
theorem C10_witness :
    adjustedTargetValue 600 10 3 (1 / 2) S10.s0 S10.parentN S10.newN = some (2 ^ 255) ∧
    (0 : Int) ≤ 2 ^ 255 ∧
    (((2 : Int) ^ 256 ≤ 2 ^ 255 →
        childTarget 600 10 3 (1 / 2) S10.s0 S10.parentN S10.newN = none) ∧
      ((2 : Int) ^ 255 < 2 ^ 256 →
        childTarget 600 10 3 (1 / 2) S10.s0 S10.parentN S10.newN =
          some (List.replicate (32 - (natToBytesBE (Int.toNat (2 ^ 255))).length) 0 ++
            natToBytesBE (Int.toNat (2 ^ 255))) ∧
        (List.replicate (32 - (natToBytesBE (Int.toNat (2 ^ 255))).length) 0 ++
            natToBytesBE (Int.toNat (2 ^ 255))).length = 32 ∧
        fromBytesBE (List.replicate (32 - (natToBytesBE (Int.toNat (2 ^ 255))).length) 0 ++
            natToBytesBE (Int.toNat (2 ^ 255))) = Int.toNat (2 ^ 255))) :=
  ⟨by unfold adjustedTargetValue
      norm_num [S10.s0, S10.parentN, S10.newN, S10.rootN, S10.root, S10.newB],
   by norm_num,
   C10_childTarget_overflow_panics 600 10 3 (1 / 2) S10.s0 S10.parentN S10.newN (2 ^ 255)
     (by unfold adjustedTargetValue
         norm_num [S10.s0, S10.parentN, S10.newN, S10.rootN, S10.root, S10.newB])
     (by norm_num)⟩

end Sia
